import Mathlib

/-!
Verification development for the `disk-dlmalloc` crate: a dlmalloc-style
allocator whose backing store is a memory-mapped file.

The reference segment provider (`src/sys.rs`) and the public wrapper /
standard-allocator adapter (`src/lib.rs`) are embedded from the source.
The allocator core (`src/dlmalloc.rs`, declared as `mod dlmalloc` in
`lib.rs`) is not part of the available sources, so its operations are
modelled from the specification at the interface level the wrapper uses.

Pointers are modelled as byte offsets into the mapped file (the mmap base
address is taken to be 0), machine integers as `Nat` (no argument in the
verified statements reaches the `usize` overflow regime).
-/

/-- The mutable state of the reference provider (`Inner` in `src/sys.rs`,
lines 13-17): the mapped file's total size and the current bump offset.
The `mmap` field is represented by the byte-offset address space itself. -/
structure SysInner where
  totalSize : Nat
  offset : Nat
deriving DecidableEq, Repr

/-- A region triple `(base, size, flags)` as returned by `System::alloc`;
`base` is an offset from the mmap base pointer. -/
structure Region where
  base : Nat
  size : Nat
  flags : Nat
deriving DecidableEq, Repr

/-- `System::alloc` (`src/sys.rs` lines 53-61): fail with the null triple
when `offset + size > total_size`, otherwise hand out the region at the
current bump offset and advance the offset by `size`.  The null triple
`(null, 0, 0)` is modelled as `none`. -/
def sysAlloc (inner : SysInner) (size : Nat) : Option Region × SysInner :=
  if inner.offset + size > inner.totalSize then
    (none, inner)
  else
    (some ⟨inner.offset, size, 0⟩, ⟨inner.totalSize, inner.offset + size⟩)

/-- `System::remap` (`src/sys.rs` lines 63-65): always null. -/
def sysRemap (_ptr _oldsize _newsize : Nat) (_canMove : Bool) : Option Nat :=
  none

/-- `System::free_part` (`src/sys.rs` lines 67-69): always `false`. -/
def sysFreePart (_ptr _oldsize _newsize : Nat) : Bool :=
  false

/-- `System::free` (`src/sys.rs` lines 71-73): always `false`. -/
def sysFreeWhole (_ptr _size : Nat) : Bool :=
  false

/-- `System::can_release_part` (`src/sys.rs` lines 75-77): always `false`. -/
def sysCanReleasePart (_flags : Nat) : Bool :=
  false

/-- `System::allocates_zeros` (`src/sys.rs` lines 79-81): always `true`. -/
def sysAllocatesZeros : Bool :=
  true

/-- A sequence of `System::alloc` calls threaded through the provider state:
the list of results together with the final state. -/
def allocSeq (inner : SysInner) : List Nat → List (Option Region) × SysInner
  | [] => ([], inner)
  | s :: rest =>
    let step := sysAlloc inner s
    let tail := allocSeq step.2 rest
    (step.1 :: tail.1, tail.2)

theorem sysAlloc_offset_mono (inner : SysInner) (s : Nat) :
    inner.offset ≤ (sysAlloc inner s).2.offset := by
  unfold sysAlloc
  split <;> simp

theorem sysAlloc_totalSize (inner : SysInner) (s : Nat) :
    (sysAlloc inner s).2.totalSize = inner.totalSize := by
  unfold sysAlloc
  split <;> simp

theorem sysAlloc_success (inner : SysInner) (s : Nat) (r : Region)
    (h : (sysAlloc inner s).1 = some r) :
    r.base = inner.offset ∧ r.size = s ∧ r.flags = 0 ∧
      (sysAlloc inner s).2.offset = inner.offset + s ∧
      inner.offset + s ≤ inner.totalSize := by
  unfold sysAlloc at h ⊢
  by_cases hc : inner.offset + s > inner.totalSize
  · simp [hc] at h
  · simp only [hc, if_neg, if_false, gt_iff_lt, not_lt] at h ⊢
    simp only [Option.some.injEq] at h
    subst h
    simp at hc ⊢
    omega

theorem sysAlloc_failure (inner : SysInner) (s : Nat)
    (h : (sysAlloc inner s).1 = none) :
    (sysAlloc inner s).2 = inner := by
  unfold sysAlloc at h ⊢
  by_cases hc : inner.offset + s > inner.totalSize
  · simp [hc]
  · simp [hc] at h

theorem allocSeq_offset_mono (l : List Nat) (inner : SysInner) :
    inner.offset ≤ (allocSeq inner l).2.offset := by
  induction l generalizing inner with
  | nil => simp [allocSeq]
  | cons s rest ih =>
    calc inner.offset ≤ (sysAlloc inner s).2.offset := sysAlloc_offset_mono inner s
    _ ≤ (allocSeq (sysAlloc inner s).2 rest).2.offset := ih _
    _ = (allocSeq inner (s :: rest)).2.offset := by simp [allocSeq]

/-- Every successful result in an `allocSeq` run has its base at or above
the starting bump offset. -/
theorem allocSeq_base_lb (l : List Nat) (inner : SysInner) (k : Nat) (r : Region)
    (h : (allocSeq inner l).1.get? k = some (some r)) :
    inner.offset ≤ r.base := by
  induction l generalizing inner k with
  | nil => simp [allocSeq] at h
  | cons s rest ih =>
    simp only [allocSeq] at h
    cases k with
    | zero =>
      simp only [List.get?] at h
      have := sysAlloc_success inner s r (by simpa using h)
      omega
    | succ k =>
      simp only [List.get?] at h
      have h1 := ih (sysAlloc inner s).2 k h
      have h2 := sysAlloc_offset_mono inner s
      omega

/-- Pairwise separation in an `allocSeq` run: an earlier successful region
ends at or before a later successful region begins. -/
theorem allocSeq_pairwise (l : List Nat) (inner : SysInner) (i j : Nat)
    (r r' : Region) (hij : i < j)
    (hi : (allocSeq inner l).1.get? i = some (some r))
    (hj : (allocSeq inner l).1.get? j = some (some r')) :
    r.base + r.size ≤ r'.base := by
  induction l generalizing inner i j with
  | nil => simp [allocSeq] at hi
  | cons s rest ih =>
    simp only [allocSeq] at hi hj
    cases i with
    | zero =>
      cases j with
      | zero => omega
      | succ j =>
        simp only [List.get?] at hi hj
        have hs := sysAlloc_success inner s r (by simpa using hi)
        have hb := allocSeq_base_lb rest (sysAlloc inner s).2 j r' hj
        omega
    | succ i =>
      cases j with
      | zero => omega
      | succ j =>
        simp only [List.get?] at hi hj
        exact ih (sysAlloc inner s).2 i j (by omega) hi hj

/-- Every successful result in an `allocSeq` run lies entirely within the
mapped file: the region ends at or before `total_size`. -/
theorem allocSeq_within (l : List Nat) (inner : SysInner) (k : Nat) (r : Region)
    (h : (allocSeq inner l).1.get? k = some (some r)) :
    r.base + r.size ≤ inner.totalSize := by
  induction l generalizing inner k with
  | nil => simp [allocSeq] at h
  | cons s rest ih =>
    simp only [allocSeq] at h
    cases k with
    | zero =>
      simp only [List.get?] at h
      have := sysAlloc_success inner s r (by simpa using h)
      omega
    | succ k =>
      simp only [List.get?] at h
      have h1 := ih (sysAlloc inner s).2 k h
      have h2 := sysAlloc_totalSize inner s
      omega

/-- C1: `System::alloc` either returns a region with reported size equal to
the request, flags 0, lying entirely inside the mapped file, or fails with
the null triple; failure happens exactly when the request exceeds the
capacity remaining past the bump offset. -/
theorem sysAlloc_spec (inner : SysInner) (s : Nat)
    (h : inner.offset ≤ inner.totalSize) :
    ((sysAlloc inner s).1 = none ↔ inner.totalSize - inner.offset < s) ∧
      (∀ r : Region, (sysAlloc inner s).1 = some r →
        s ≤ r.size ∧ r.size = s ∧ r.flags = 0 ∧
          r.base + r.size ≤ inner.totalSize) := by
  constructor
  · unfold sysAlloc
    by_cases hc : inner.offset + s > inner.totalSize
    · simp [hc]
      omega
    · simp [hc]
      omega
  · intro r hr
    have := sysAlloc_success inner s r hr
    omega

/-- Witness for `sysAlloc_spec`: a concrete provider state with offset 4 of
10 bytes; a request of 3 succeeds and a request of 7 fails. -/
theorem sysAlloc_spec_witness :
    ((sysAlloc ⟨10, 4⟩ 7).1 = none ↔ (10 : Nat) - 4 < 7) ∧
      (∀ r : Region, (sysAlloc ⟨10, 4⟩ 7).1 = some r →
        7 ≤ r.size ∧ r.size = 7 ∧ r.flags = 0 ∧ r.base + r.size ≤ 10) :=
  sysAlloc_spec ⟨10, 4⟩ 7 (by decide)

/-- C4 counterexample: two consecutive successful `alloc(0)` calls return
regions at the same base address (both succeed, the bases are equal), so the
bases of distinct successful calls are not strictly increasing. -/
theorem allocSeq_zero_size_same_base :
    (allocSeq ⟨10, 0⟩ [0, 0]).1 = [some ⟨0, 0, 0⟩, some ⟨0, 0, 0⟩] ∧
      ¬ (∀ r r' : Region,
          (allocSeq ⟨10, 0⟩ [0, 0]).1.get? 0 = some (some r) →
          (allocSeq ⟨10, 0⟩ [0, 0]).1.get? 1 = some (some r') →
          r.base < r'.base) := by
  constructor
  · decide
  · intro hmono
    have := hmono ⟨0, 0, 0⟩ ⟨0, 0, 0⟩ (by decide) (by decide)
    simp at this

/-- C4 amended: the bump offset never decreases; a successful `alloc`
advances it by exactly the granted size (a failed one leaves the state
unchanged); every successful region lies entirely within the mapped file;
and for any two distinct successful calls the earlier region ends at or
before the later one begins — so the regions are disjoint, and the bases
are strictly increasing whenever the earlier granted size is positive. -/
theorem allocSeq_disjoint_monotone :
    (∀ (inner : SysInner) (s : Nat),
        inner.offset ≤ (sysAlloc inner s).2.offset) ∧
      (∀ (inner : SysInner) (s : Nat) (r : Region),
        (sysAlloc inner s).1 = some r →
          (sysAlloc inner s).2.offset = inner.offset + r.size) ∧
      (∀ (inner : SysInner) (s : Nat),
        (sysAlloc inner s).1 = none → (sysAlloc inner s).2 = inner) ∧
      (∀ (inner : SysInner) (l : List Nat) (k : Nat) (r : Region),
        (allocSeq inner l).1.get? k = some (some r) →
          r.base + r.size ≤ inner.totalSize) ∧
      (∀ (inner : SysInner) (l : List Nat) (i j : Nat) (r r' : Region),
        i < j →
        (allocSeq inner l).1.get? i = some (some r) →
        (allocSeq inner l).1.get? j = some (some r') →
          r.base + r.size ≤ r'.base ∧ (0 < r.size → r.base < r'.base)) := by
  refine ⟨sysAlloc_offset_mono, ?_, sysAlloc_failure, ?_, ?_⟩
  · intro inner s r hr
    have := sysAlloc_success inner s r hr
    omega
  · intro inner l k r hk
    exact allocSeq_within l inner k r hk
  · intro inner l i j r r' hij hi hj
    have := allocSeq_pairwise l inner i j r r' hij hi hj
    omega

/-- Witness for `allocSeq_disjoint_monotone`: in the run `[3, 5]` from a
fresh 10-byte provider, the two successful regions `⟨0,3,0⟩` and `⟨3,5,0⟩`
satisfy the separation and strict-increase conclusions, and the first one
lies within the 10-byte file. -/
theorem allocSeq_disjoint_monotone_witness :
    ((0 : Nat) + 3 ≤ 3 ∧ ((0 : Nat) < 3 → (0 : Nat) < 3)) ∧ (0 : Nat) + 3 ≤ 10 :=
  ⟨allocSeq_disjoint_monotone.2.2.2.2 ⟨10, 0⟩ [3, 5] 0 1 ⟨0, 3, 0⟩ ⟨3, 5, 0⟩
      (by decide) (by decide) (by decide),
    allocSeq_disjoint_monotone.2.2.2.1 ⟨10, 0⟩ [3, 5] 0 ⟨0, 3, 0⟩ (by decide)⟩

/-- Events recording which core operations and memory writes a wrapper entry
point performs, in program order. -/
inductive Event where
  | validateEv (ptr size : Nat)
  | mallocEv (size : Nat)
  | memalignEv (align size : Nat)
  | reallocEv (ptr newSize : Nat)
  | freeEv (ptr : Nat)
  | copyEv (src dst n : Nat)
  | memsetEv (ptr n : Nat)
deriving DecidableEq, Repr

/-- Modelled from the spec: the allocator core's state at the interface the
wrapper uses (`src/dlmalloc.rs` is absent from the sources).  `inner` is the
reference provider's bump state, `live` associates each live payload pointer
with its requested size (the chunk header information the core reads back),
`writes` is the journal of byte writes into the mapped file (the file starts
zero-filled, so an address absent from the journal reads 0), and
`topSize`/`topFlags` describe the top chunk and its segment flags for
`trim`. -/
structure MState where
  inner : SysInner
  live : List (Nat × Nat)
  writes : List (Nat × Nat)
  topSize : Nat
  topFlags : Nat
deriving DecidableEq, Repr

/-- The byte stored at address `a`: the most recent journal entry, or 0 if
the address was never written (the mapped file is created zero-filled). -/
def memAt (st : MState) (a : Nat) : Nat :=
  match st.writes.find? (fun e => e.1 == a) with
  | some e => e.2
  | none => 0

/-- Whether address `a` has been written since the provider handed it out
(the reference provider never recycles regions, so this is simply whether
the journal mentions `a`). -/
def writtenB (st : MState) (a : Nat) : Bool :=
  (st.writes.find? (fun e => e.1 == a)).isSome

/-- Modelled from the spec: the core's natural alignment
(`malloc_alignment()`); the spec fixes size granularity and alignment at
eight bytes. -/
def mallocAlignment : Nat := 8

/-- Modelled from the spec: per-chunk overhead of two words, the offset from
the chunk base to the payload pointer handed to clients. -/
def chunkOverhead : Nat := 16

/-- Modelled from the spec: the minimum chunk size, six words on a 64-bit
target. -/
def minChunkSize : Nat := 48

/-- Modelled from the spec: pad a request to a chunk size — add the
two-word overhead, round up to the granularity, clamp to the minimum. -/
def padRequest (size : Nat) : Nat :=
  max minChunkSize ((size + chunkOverhead + 7) / 8 * 8)

/-- `ptr::write_bytes(p, 0, n)`: journal a zero write to each of the `n`
bytes starting at `p`. -/
def memsetZero (st : MState) (p : Nat) : Nat → MState
  | 0 => st
  | n + 1 =>
    let st' := memsetZero st p n
    { st' with writes := (p + n, 0) :: st'.writes }

/-- `ptr::copy_nonoverlapping(src, dst, n)`: journal a write of each source
byte (read from the pre-copy state, the ranges do not overlap) to the
destination. -/
def memcpyBytes (st : MState) (src dst : Nat) : Nat → MState
  | 0 => st
  | n + 1 =>
    let st' := memcpyBytes st src dst n
    { st' with writes := (dst + n, memAt st (src + n)) :: st'.writes }

/-- Modelled from the spec: the core's `malloc(size)` at the interface
level.  The bin machinery is abstracted away: a request is padded
(overhead + granularity rounding + minimum clamp) and served from the
provider; the payload pointer is the chunk base plus two words.  On
provider failure the core returns null with its state unchanged. -/
def coreMalloc (st : MState) (size : Nat) : Option Nat × MState :=
  match sysAlloc st.inner (padRequest size) with
  | (none, _) => (none, st)
  | (some reg, inner') =>
    (some (reg.base + chunkOverhead),
      { st with inner := inner',
                live := (reg.base + chunkOverhead, size) :: st.live })

/-- Modelled from the spec: the core's `memalign(align, size)` — allocate
enough for `size + align` plus overhead and return the next payload
boundary aligned to `align` (the prefix/suffix splitting of the freed
slack is abstracted away).  Null with state unchanged on failure. -/
def coreMemalign (st : MState) (align size : Nat) : Option Nat × MState :=
  match sysAlloc st.inner (padRequest (size + align)) with
  | (none, _) => (none, st)
  | (some reg, inner') =>
    let p := (reg.base + chunkOverhead + align - 1) / align * align
    (some p, { st with inner := inner', live := (p, size) :: st.live })

/-- Modelled from the spec: the core's `realloc(ptr, new_size)` — succeed
in place when the padded new size still fits the chunk (recording the new
requested size), otherwise fail to null with the state unchanged so the
caller can fall back to allocate-copy-free. -/
def coreRealloc (st : MState) (p newSize : Nat) : Option Nat × MState :=
  match st.live.find? (fun e => e.1 == p) with
  | none => (none, st)
  | some e =>
    if padRequest newSize ≤ padRequest e.2 then
      (some p,
        { st with live := st.live.map (fun q => if q.1 == p then (p, newSize) else q) })
    else
      (none, st)

/-- Modelled from the spec: the core's `free(ptr)` — the chunk leaves the
live set (coalescing and binning of the freed space are abstracted away). -/
def coreFree (st : MState) (p : Nat) : MState :=
  { st with live := st.live.eraseP (fun e => e.1 == p) }

/-- Modelled from the spec: `validate_size(ptr, claimed)` cross-checks the
claimed size against the chunk header; it never mutates the state. -/
def validateOk (st : MState) (p size : Nat) : Bool :=
  match st.live.find? (fun e => e.1 == p) with
  | some e => size ≤ e.2
  | none => false

/-- Modelled from the spec: `calloc_must_clear(ptr)` returns true unless the
bytes at `ptr` are known zero because the provider zero-fills fresh regions
and none of the chunk's payload bytes has been written since. -/
def callocMustClear (st : MState) (p : Nat) : Bool :=
  if sysAllocatesZeros then
    match st.live.find? (fun e => e.1 == p) with
    | some e => (List.range e.2).any (fun i => writtenB st (p + i))
    | none => true
  else
    true

/-- Modelled from the spec: the core's `trim(pad)`.  With room above
`pad + extra` in the top chunk it asks the provider to release the tail
via `free_part`, guarded by `can_release_part` on the segment's flags;
it returns true iff at least one byte was released. -/
def coreTrim (st : MState) (pad : Nat) : Bool × MState :=
  if sysCanReleasePart st.topFlags && decide (pad + minChunkSize < st.topSize) then
    if sysFreePart 0 st.topSize (pad + minChunkSize) then
      (true, { st with topSize := pad + minChunkSize })
    else
      (false, st)
  else
    (false, st)

/-- `DiskDlmalloc::malloc` (`src/lib.rs` lines 92-99): dispatch to the
core's `malloc` at natural alignment, to `memalign` above it. -/
def wmalloc (st : MState) (size align : Nat) : Option Nat × MState × List Event :=
  if align ≤ mallocAlignment then
    match coreMalloc st size with
    | (r, st') => (r, st', [Event.mallocEv size])
  else
    match coreMemalign st align size with
    | (r, st') => (r, st', [Event.memalignEv align size])

/-- `DiskDlmalloc::calloc` (`src/lib.rs` lines 104-111): `malloc`, then
zero the payload unless `calloc_must_clear` says it is already zero. -/
def wcalloc (st : MState) (size align : Nat) : Option Nat × MState × List Event :=
  match wmalloc st size align with
  | (none, st', ev) => (none, st', ev)
  | (some p, st', ev) =>
    if callocMustClear st' p then
      (some p, memsetZero st' p size, ev ++ [Event.memsetEv p size])
    else
      (some p, st', ev)

/-- `DiskDlmalloc::free` (`src/lib.rs` lines 119-124): the `align` argument
is discarded, the size is validated against the chunk header, then the core
free runs. -/
def wfree (st : MState) (ptr size _align : Nat) : MState × List Event :=
  (coreFree st ptr, [Event.validateEv ptr size, Event.freeEv ptr])

/-- `DiskDlmalloc::realloc` (`src/lib.rs` lines 136-158): validate the old
size; at natural alignment delegate to the core's `realloc`; above it,
allocate anew, and only on success copy `min(old_size, new_size)` bytes and
free the old pointer. -/
def wrealloc (st : MState) (ptr oldSize oldAlign newSize : Nat) :
    Option Nat × MState × List Event :=
  if oldAlign ≤ mallocAlignment then
    match coreRealloc st ptr newSize with
    | (r, st') =>
      (r, st', [Event.validateEv ptr oldSize, Event.reallocEv ptr newSize])
  else
    match wmalloc st newSize oldAlign with
    | (none, st1, ev1) => (none, st1, Event.validateEv ptr oldSize :: ev1)
    | (some np, st1, ev1) =>
      match wfree (memcpyBytes st1 ptr np (min oldSize newSize)) ptr oldSize oldAlign with
      | (st3, ev2) =>
        (some np, st3,
          Event.validateEv ptr oldSize ::
            (ev1 ++ (Event.copyEv ptr np (min oldSize newSize) :: ev2)))

/-- `DiskDlmalloc::trim` (`src/lib.rs` lines 177-180): delegate to the
core's `trim`. -/
def wtrim (st : MState) (pad : Nat) : Bool × MState :=
  coreTrim st pad

/-- The core call shared by `Allocator::allocate` and
`Allocator::allocate_zeroed` (`src/lib.rs` lines 188-192 and 209-213):
`malloc` at natural alignment, `memalign` above it. -/
def coreDispatch (st : MState) (size align : Nat) : Option Nat × MState :=
  if align ≤ mallocAlignment then coreMalloc st size else coreMemalign st align size

/-- `Allocator::allocate` (`src/lib.rs` lines 184-203): null from the core
becomes `AllocError`, otherwise a slice handle of length `layout.size()`. -/
def wallocate (st : MState) (size align : Nat) :
    Except Unit (Nat × Nat) × MState :=
  match coreDispatch st size align with
  | (none, st') => (Except.error (), st')
  | (some p, st') => (Except.ok (p, size), st')

/-- `Allocator::allocate_zeroed` (`src/lib.rs` lines 205-228): like
`allocate`, zeroing the payload first when `calloc_must_clear` requires. -/
def wallocateZeroed (st : MState) (size align : Nat) :
    Except Unit (Nat × Nat) × MState :=
  match coreDispatch st size align with
  | (none, st') => (Except.error (), st')
  | (some p, st') =>
    if callocMustClear st' p then
      (Except.ok (p, size), memsetZero st' p size)
    else
      (Except.ok (p, size), st')

/-- `Allocator::deallocate` (`src/lib.rs` lines 230-237): return immediately
on a zero-size layout; otherwise validate the size and free. -/
def wdeallocate (st : MState) (ptr size _align : Nat) : MState × List Event :=
  if size = 0 then
    (st, [])
  else
    (coreFree st ptr, [Event.validateEv ptr size, Event.freeEv ptr])

/-- A constructed provider handle (`System` in `src/sys.rs` lines 8-11):
the page size and the bump state. -/
structure SysHandle where
  pageSize : Nat
  inner : SysInner
deriving DecidableEq, Repr

/-- The file operations `System::new` performs, in order. -/
inductive FileOp where
  | openFileOp (read write create truncate : Bool)
  | setLenOp (n : Nat)
  | mmapRWOp
deriving DecidableEq, Repr

/-- `System::new` (`src/sys.rs` lines 20-49) with each fallible syscall's
outcome passed in explicitly: open the file read+write+create+truncate,
set its length to `total_size`, memory-map it read/write.  A failure at any
step panics — modelled as `none`, no handle — and stops the sequence; on
success the handle starts with a zero bump offset. -/
def sysNew (openOk setLenOk mmapOk : Bool) (totalSize pageSize : Nat) :
    Option SysHandle × List FileOp :=
  if openOk = false then
    (none, [FileOp.openFileOp true true true true])
  else if setLenOk = false then
    (none, [FileOp.openFileOp true true true true, FileOp.setLenOp totalSize])
  else if mmapOk = false then
    (none, [FileOp.openFileOp true true true true, FileOp.setLenOp totalSize,
            FileOp.mmapRWOp])
  else
    (some ⟨pageSize, ⟨totalSize, 0⟩⟩,
      [FileOp.openFileOp true true true true, FileOp.setLenOp totalSize,
       FileOp.mmapRWOp])

/-- C5: with the reference provider — `remap` always null, `free_part` and
`free` always false, `can_release_part` false for every flags value —
`trim(pad)` returns false for every pad and every state, and the state
(segments included) is unchanged. -/
theorem trim_noop (st : MState) (pad : Nat) :
    (∀ p o n c, sysRemap p o n c = none) ∧
      (∀ p o n, sysFreePart p o n = false) ∧
      (∀ p s, sysFreeWhole p s = false) ∧
      (∀ f, sysCanReleasePart f = false) ∧
      wtrim st pad = (false, st) := by
  refine ⟨fun _ _ _ _ => rfl, fun _ _ _ => rfl, fun _ _ => rfl, fun _ => rfl, ?_⟩
  simp [wtrim, coreTrim, sysCanReleasePart]

/-- C9: `DiskDlmalloc::free` ignores its `align` argument — any two
alignment values produce identical results — and its event trace is
exactly a header-size validation followed by the core free. -/
theorem free_align_irrelevant (st : MState) (ptr size a1 a2 : Nat) :
    wfree st ptr size a1 = wfree st ptr size a2 ∧
      (wfree st ptr size a1).2 = [Event.validateEv ptr size, Event.freeEv ptr] :=
  ⟨rfl, rfl⟩

/-- C10: `Allocator::deallocate` on a zero-size layout returns immediately:
the state is unchanged and no validation or core free runs (empty event
trace). -/
theorem deallocate_zero_noop (st : MState) (ptr align : Nat) :
    wdeallocate st ptr 0 align = (st, []) :=
  rfl

/-- Modelled from the spec: the dispatch rule in the spec's words —
`memalign` "is used when requested alignment exceeds natural alignment",
`malloc` otherwise. -/
def mallocSpecDispatch (st : MState) (size align : Nat) : Option Nat × MState :=
  if mallocAlignment < align then coreMemalign st align size else coreMalloc st size

/-- A concrete state for witnesses: a fresh 1000-byte provider, no live
chunks, no writes. -/
def stExample : MState := ⟨⟨1000, 0⟩, [], [], 0, 0⟩

/-- C7: `DiskDlmalloc::malloc` returns the core's `malloc(size)` when
`align` is at most `malloc_alignment()` and the core's
`memalign(align, size)` when it exceeds it, agreeing with the dispatch rule
stated in the spec; `memalign` is invoked only for alignments exceeding the
natural alignment. -/
theorem malloc_dispatch_refines (st : MState) (size align : Nat) :
    ((wmalloc st size align).1, (wmalloc st size align).2.1) =
        mallocSpecDispatch st size align ∧
      (align ≤ mallocAlignment →
        (wmalloc st size align).1 = (coreMalloc st size).1 ∧
          (wmalloc st size align).2.1 = (coreMalloc st size).2 ∧
          ∀ a s, Event.memalignEv a s ∉ (wmalloc st size align).2.2) ∧
      (mallocAlignment < align →
        (wmalloc st size align).1 = (coreMemalign st align size).1 ∧
          (wmalloc st size align).2.1 = (coreMemalign st align size).2 ∧
          Event.memalignEv align size ∈ (wmalloc st size align).2.2) := by
  by_cases hc : align ≤ mallocAlignment
  · rcases hm : coreMalloc st size with ⟨r, st'⟩
    have hlt : ¬ mallocAlignment < align := by omega
    simp [wmalloc, mallocSpecDispatch, hc, hlt, hm]
  · rcases hm : coreMemalign st align size with ⟨r, st'⟩
    have hlt : mallocAlignment < align := by omega
    simp [wmalloc, mallocSpecDispatch, hc, hlt, hm]

/-- Witness for `malloc_dispatch_refines` at alignment 16 > 8: the wrapper
result is the core `memalign` result and a `memalign` event was traced. -/
theorem malloc_dispatch_refines_witness :
    (wmalloc stExample 4 16).1 = (coreMemalign stExample 16 4).1 ∧
      (wmalloc stExample 4 16).2.1 = (coreMemalign stExample 16 4).2 ∧
      Event.memalignEv 16 4 ∈ (wmalloc stExample 4 16).2.2 :=
  (malloc_dispatch_refines stExample 4 16).2.2 (by decide)

/-- C6: `Allocator::allocate` and `Allocator::allocate_zeroed` return the
error sentinel exactly when the underlying core call (`malloc` or
`memalign`, by the alignment dispatch) returns null, and otherwise a
non-null handle of length `layout.size()`. -/
theorem allocate_error_iff (st : MState) (size align : Nat) :
    ((wallocate st size align).1 = Except.error () ↔
        (coreDispatch st size align).1 = none) ∧
      (∀ p l, (wallocate st size align).1 = Except.ok (p, l) →
        l = size ∧ (coreDispatch st size align).1 = some p) ∧
      ((wallocateZeroed st size align).1 = Except.error () ↔
        (coreDispatch st size align).1 = none) ∧
      (∀ p l, (wallocateZeroed st size align).1 = Except.ok (p, l) →
        l = size ∧ (coreDispatch st size align).1 = some p) := by
  rcases hd : coreDispatch st size align with ⟨r, st'⟩
  cases r with
  | none => simp [wallocate, wallocateZeroed, hd]
  | some p =>
    by_cases hmc : callocMustClear st' p <;>
      simp [wallocate, wallocateZeroed, hd, hmc]

/-- Witness for `allocate_error_iff`: the concrete call
`allocate(size 4, align 8)` on a fresh state yields a handle of length 4
matching the core pointer 16. -/
theorem allocate_error_iff_witness :
    (4 : Nat) = 4 ∧ (coreDispatch stExample 4 8).1 = some 16 :=
  (allocate_error_iff stExample 4 8).2.1 16 4 rfl

/-- C8: `System::new` opens the backing file read+write+create+truncate,
sets its length to `total_size`, and memory-maps it read/write; on any of
the three syscalls failing it panics (no handle); on success the handle
records the configured total size and a zero bump offset. -/
theorem sysNew_spec (o s m : Bool) (ts ps : Nat) :
    ((sysNew o s m ts ps).1 = none ↔ (o = false ∨ s = false ∨ m = false)) ∧
      (∀ h : SysHandle, (sysNew o s m ts ps).1 = some h →
        h.inner.totalSize = ts ∧ h.inner.offset = 0 ∧ h.pageSize = ps ∧
          (sysNew o s m ts ps).2 =
            [FileOp.openFileOp true true true true, FileOp.setLenOp ts,
             FileOp.mmapRWOp]) := by
  cases o <;> cases s <;> cases m <;> simp [sysNew]

/-- Witness for `sysNew_spec`: all three syscalls succeeding with
`total_size` 100 and page size 4096 yields a handle with offset 0 and the
full open/set-length/mmap trace. -/
theorem sysNew_spec_witness :
    (⟨4096, ⟨100, 0⟩⟩ : SysHandle).inner.totalSize = 100 ∧
      (⟨4096, ⟨100, 0⟩⟩ : SysHandle).inner.offset = 0 ∧
      (⟨4096, ⟨100, 0⟩⟩ : SysHandle).pageSize = 4096 ∧
      (sysNew true true true 100 4096).2 =
        [FileOp.openFileOp true true true true, FileOp.setLenOp 100,
         FileOp.mmapRWOp] :=
  (sysNew_spec true true true 100 4096).2 ⟨4096, ⟨100, 0⟩⟩ rfl


theorem wmalloc_eq_le (st : MState) (size align : Nat)
    (hc : align ≤ mallocAlignment) :
    wmalloc st size align =
      ((coreMalloc st size).1, (coreMalloc st size).2, [Event.mallocEv size]) := by
  unfold wmalloc
  rw [if_pos hc]

theorem wmalloc_eq_gt (st : MState) (size align : Nat)
    (hc : ¬ align ≤ mallocAlignment) :
    wmalloc st size align =
      ((coreMemalign st align size).1, (coreMemalign st align size).2,
        [Event.memalignEv align size]) := by
  unfold wmalloc
  rw [if_neg hc]

theorem coreMalloc_failure (st : MState) (size : Nat)
    (h : (coreMalloc st size).1 = none) : (coreMalloc st size).2 = st := by
  rcases hsa : sysAlloc st.inner (padRequest size) with ⟨r, inner2⟩
  unfold coreMalloc at h ⊢
  rw [hsa] at h ⊢
  cases r with
  | none => rfl
  | some reg => simp at h

theorem coreMalloc_success_shape (st : MState) (size p : Nat)
    (h : (coreMalloc st size).1 = some p) :
    (coreMalloc st size).2.live = (p, size) :: st.live ∧
      (coreMalloc st size).2.writes = st.writes := by
  rcases hsa : sysAlloc st.inner (padRequest size) with ⟨r, inner2⟩
  unfold coreMalloc at h ⊢
  rw [hsa] at h ⊢
  cases r with
  | none => simp at h
  | some reg =>
    simp only [Option.some.injEq] at h
    subst h
    exact ⟨rfl, rfl⟩

theorem coreMemalign_failure (st : MState) (align size : Nat)
    (h : (coreMemalign st align size).1 = none) :
    (coreMemalign st align size).2 = st := by
  rcases hsa : sysAlloc st.inner (padRequest (size + align)) with ⟨r, inner2⟩
  unfold coreMemalign at h ⊢
  rw [hsa] at h ⊢
  cases r with
  | none => rfl
  | some reg => simp at h

theorem coreMemalign_success_shape (st : MState) (align size p : Nat)
    (h : (coreMemalign st align size).1 = some p) :
    (coreMemalign st align size).2.live = (p, size) :: st.live ∧
      (coreMemalign st align size).2.writes = st.writes := by
  rcases hsa : sysAlloc st.inner (padRequest (size + align)) with ⟨r, inner2⟩
  unfold coreMemalign at h ⊢
  rw [hsa] at h ⊢
  cases r with
  | none => simp at h
  | some reg =>
    simp only [Option.some.injEq] at h
    subst h
    exact ⟨rfl, rfl⟩

theorem coreRealloc_failure (st : MState) (p n : Nat)
    (h : (coreRealloc st p n).1 = none) : (coreRealloc st p n).2 = st := by
  rcases hf : st.live.find? (fun e => e.1 == p) with _ | e
  · unfold coreRealloc at h ⊢
    rw [hf] at h ⊢
  · unfold coreRealloc at h ⊢
    rw [hf] at h ⊢
    by_cases hle : padRequest n ≤ padRequest e.2
    · simp [hle] at h
    · simp [hle]

theorem wmalloc_failure (st : MState) (size align : Nat)
    (h : (wmalloc st size align).1 = none) :
    (wmalloc st size align).2.1 = st := by
  by_cases hc : align ≤ mallocAlignment
  · rw [wmalloc_eq_le st size align hc] at h ⊢
    exact coreMalloc_failure st size h
  · rw [wmalloc_eq_gt st size align hc] at h ⊢
    exact coreMemalign_failure st align size h

/-- On success, the wrapper `malloc` pushes the returned pointer with its
requested size onto the live set and performs no byte writes. -/
theorem wmalloc_success_shape (st : MState) (size align p : Nat)
    (h : (wmalloc st size align).1 = some p) :
    (wmalloc st size align).2.1.live = (p, size) :: st.live ∧
      (wmalloc st size align).2.1.writes = st.writes := by
  by_cases hc : align ≤ mallocAlignment
  · rw [wmalloc_eq_le st size align hc] at h ⊢
    exact coreMalloc_success_shape st size p h
  · rw [wmalloc_eq_gt st size align hc] at h ⊢
    exact coreMemalign_success_shape st align size p h

/-- The wrapper `malloc` traces exactly one core event. -/
theorem wmalloc_events (st : MState) (size align : Nat) :
    (wmalloc st size align).2.2 = [Event.mallocEv size] ∨
      (wmalloc st size align).2.2 = [Event.memalignEv align size] := by
  by_cases hc : align ≤ mallocAlignment
  · rw [wmalloc_eq_le st size align hc]
    exact Or.inl rfl
  · rw [wmalloc_eq_gt st size align hc]
    exact Or.inr rfl

theorem memAt_of_not_written (st : MState) (a : Nat)
    (h : writtenB st a = false) : memAt st a = 0 := by
  unfold memAt
  unfold writtenB at h
  cases hf : st.writes.find? (fun e => e.1 == a) with
  | none => rfl
  | some e => simp [hf] at h

theorem memAt_memsetZero_of_lt (st : MState) (p : Nat) (n a : Nat)
    (h1 : p ≤ a) (h2 : a < p + n) : memAt (memsetZero st p n) a = 0 := by
  induction n with
  | zero => omega
  | succ n ih =>
    by_cases hc : p + n = a
    · have hb : ((p + n == a) : Bool) = true := by simp [hc]
      simp [memsetZero, memAt, List.find?, hb]
    · have hb : ((p + n == a) : Bool) = false := by simp [hc]
      simp only [memsetZero, memAt, List.find?, hb]
      exact ih (by omega)

/-- C2: if `DiskDlmalloc::realloc` returns null, the allocator state
(including all file bytes) is unchanged and the old pointer was not freed;
a free of the old pointer happens only when a non-null result is returned,
and in the copy-fallback path only after the old contents have been
copied (the trace ends `copy, validate, free` with no earlier free). -/
theorem realloc_null_preserves (st : MState) (ptr oldSize oldAlign newSize : Nat) :
    ((wrealloc st ptr oldSize oldAlign newSize).1 = none →
        (wrealloc st ptr oldSize oldAlign newSize).2.1 = st ∧
          Event.freeEv ptr ∉ (wrealloc st ptr oldSize oldAlign newSize).2.2) ∧
      (Event.freeEv ptr ∈ (wrealloc st ptr oldSize oldAlign newSize).2.2 →
        (wrealloc st ptr oldSize oldAlign newSize).1 ≠ none) ∧
      (¬ oldAlign ≤ mallocAlignment → ∀ np,
        (wrealloc st ptr oldSize oldAlign newSize).1 = some np →
        ∃ pre,
          (wrealloc st ptr oldSize oldAlign newSize).2.2 =
              pre ++ [Event.copyEv ptr np (min oldSize newSize),
                Event.validateEv ptr oldSize, Event.freeEv ptr] ∧
            Event.freeEv ptr ∉ pre) := by
  by_cases hc : oldAlign ≤ mallocAlignment
  · have heq : wrealloc st ptr oldSize oldAlign newSize =
        ((coreRealloc st ptr newSize).1, (coreRealloc st ptr newSize).2,
          [Event.validateEv ptr oldSize, Event.reallocEv ptr newSize]) := by
      unfold wrealloc
      rw [if_pos hc]
    rw [heq]
    refine ⟨?_, ?_, ?_⟩
    · intro h
      exact ⟨coreRealloc_failure st ptr newSize h, by simp⟩
    · intro hmem
      simp at hmem
    · intro hgt
      exact absurd hc hgt
  · rcases hm : coreMemalign st oldAlign newSize with ⟨r, st'⟩
    have heqm : wmalloc st newSize oldAlign =
        (r, st', [Event.memalignEv oldAlign newSize]) := by
      rw [wmalloc_eq_gt st newSize oldAlign hc, hm]
    cases r with
    | none =>
      have heq : wrealloc st ptr oldSize oldAlign newSize =
          (none, st',
            Event.validateEv ptr oldSize :: [Event.memalignEv oldAlign newSize]) := by
        unfold wrealloc
        rw [if_neg hc, heqm]
      rw [heq]
      refine ⟨?_, ?_, ?_⟩
      · intro _
        have h2 := coreMemalign_failure st oldAlign newSize (by rw [hm])
        rw [hm] at h2
        exact ⟨h2, by simp⟩
      · intro hmem
        simp at hmem
      · intro _ np h
        simp at h
    | some q =>
      have heq : wrealloc st ptr oldSize oldAlign newSize =
          (some q,
            (wfree (memcpyBytes st' ptr q (min oldSize newSize)) ptr oldSize oldAlign).1,
            Event.validateEv ptr oldSize ::
              ([Event.memalignEv oldAlign newSize] ++
                (Event.copyEv ptr q (min oldSize newSize) ::
                  (wfree (memcpyBytes st' ptr q (min oldSize newSize))
                      ptr oldSize oldAlign).2))) := by
        unfold wrealloc
        rw [if_neg hc, heqm]
      rw [heq]
      refine ⟨?_, ?_, ?_⟩
      · intro h
        simp at h
      · intro _
        simp
      · intro _ np h
        simp only [Option.some.injEq] at h
        subst h
        refine ⟨[Event.validateEv ptr oldSize, Event.memalignEv oldAlign newSize],
          ?_, by simp⟩
        simp [wfree]

/-- Witness for `realloc_null_preserves`: the concrete failing call
`realloc(ptr 5, old 10, align 8, new 20)` on a fresh state (pointer not
live, in-place realloc fails) leaves the state unchanged and frees
nothing. -/
theorem realloc_null_preserves_witness :
    (wrealloc stExample 5 10 8 20).2.1 = stExample ∧
      Event.freeEv 5 ∉ (wrealloc stExample 5 10 8 20).2.2 :=
  (realloc_null_preserves stExample 5 10 8 20).1 rfl

/-- On success, the core dispatch shared by the adapter methods pushes the
returned pointer with its requested size onto the live set and performs no
byte writes. -/
theorem coreDispatch_success_shape (st : MState) (size align p : Nat)
    (h : (coreDispatch st size align).1 = some p) :
    (coreDispatch st size align).2.live = (p, size) :: st.live ∧
      (coreDispatch st size align).2.writes = st.writes := by
  unfold coreDispatch at h ⊢
  by_cases hc : align ≤ mallocAlignment
  · rw [if_pos hc] at h ⊢
    exact coreMalloc_success_shape st size p h
  · rw [if_neg hc] at h ⊢
    exact coreMemalign_success_shape st align size p h

/-- When `calloc_must_clear` reports false for a chunk of `size` payload
bytes at `p`, every one of those bytes reads zero: none of them was written
since the zero-filling provider handed the region out. -/
theorem memAt_zero_of_mcc_false (st1 : MState) (p size : Nat)
    (hfind : st1.live.find? (fun e => e.1 == p) = some (p, size))
    (hmcf : callocMustClear st1 p = false) :
    ∀ i, i < size → memAt st1 (p + i) = 0 := by
  intro i hi
  have hany : ((List.range size).any (fun j => writtenB st1 (p + j))) = false := by
    unfold callocMustClear at hmcf
    rw [hfind] at hmcf
    simpa [sysAllocatesZeros] using hmcf
  have hw : writtenB st1 (p + i) = false := by
    by_contra hw
    have hw' : writtenB st1 (p + i) = true := by
      revert hw
      cases writtenB st1 (p + i) <;> simp
    have hcon : (List.range size).any (fun j => writtenB st1 (p + j)) = true :=
      List.any_eq_true.mpr ⟨i, List.mem_range.mpr hi, hw'⟩
    rw [hany] at hcon
    exact Bool.false_ne_true hcon
  exact memAt_of_not_written st1 (p + i) hw

/-- C3: a successful `DiskDlmalloc::calloc` — and likewise a successful
`Allocator::allocate_zeroed` — returns memory whose `size` bytes all read
zero; `calloc`'s zeroing memset is traced exactly when `calloc_must_clear`
demands it (it is elided when the bytes are known zero), and the reference
provider reports `allocates_zeros`. -/
theorem calloc_zeroizes (st : MState) (size align p : Nat) :
    ((wcalloc st size align).1 = some p →
      (∀ i, i < size → memAt (wcalloc st size align).2.1 (p + i) = 0) ∧
        (Event.memsetEv p size ∈ (wcalloc st size align).2.2 ↔
          callocMustClear (wmalloc st size align).2.1 p = true)) ∧
      (∀ l, (wallocateZeroed st size align).1 = Except.ok (p, l) →
        ∀ i, i < size → memAt (wallocateZeroed st size align).2 (p + i) = 0) ∧
      sysAllocatesZeros = true := by
  refine ⟨?_, ?_, rfl⟩
  · intro h
    rcases hm : wmalloc st size align with ⟨res, st1, ev1⟩
    unfold wcalloc at h ⊢
    rw [hm] at h ⊢
    cases res with
    | none => simp at h
    | some q =>
      dsimp only at h ⊢
      have hq : q = p := by
        by_cases hmc : callocMustClear st1 q <;> simp [hmc] at h <;> exact h
      subst hq
      by_cases hmc : callocMustClear st1 q
      · rw [if_pos hmc]
        refine ⟨?_, ?_⟩
        · intro i hi
          exact memAt_memsetZero_of_lt st1 q size (q + i) (by omega) (by omega)
        · simp [hmc]
      · have hmcf : callocMustClear st1 q = false := by
          revert hmc
          cases callocMustClear st1 q <;> simp
        rw [if_neg hmc]
        refine ⟨?_, ?_⟩
        · intro i hi
          have hshape := wmalloc_success_shape st size align q (by rw [hm])
          rw [hm] at hshape
          have hfind : st1.live.find? (fun e => e.1 == q) = some (q, size) := by
            rw [hshape.1]
            simp [List.find?]
          exact memAt_zero_of_mcc_false st1 q size hfind hmcf i hi
        · have hev := wmalloc_events st size align
          rw [hm] at hev
          rcases hev with hev | hev <;> rw [hev] <;> simp [hmcf]
  · intro l h
    rcases hd : coreDispatch st size align with ⟨r, st1⟩
    unfold wallocateZeroed at h ⊢
    rw [hd] at h ⊢
    cases r with
    | none => simp at h
    | some q =>
      dsimp only at h ⊢
      by_cases hmc : callocMustClear st1 q
      · rw [if_pos hmc] at h ⊢
        dsimp only at h
        simp only [Except.ok.injEq, Prod.mk.injEq] at h
        obtain ⟨hqp, hsl⟩ := h
        subst hqp
        intro i hi
        exact memAt_memsetZero_of_lt st1 q size (q + i) (by omega) (by omega)
      · rw [if_neg hmc] at h ⊢
        dsimp only at h
        simp only [Except.ok.injEq, Prod.mk.injEq] at h
        obtain ⟨hqp, hsl⟩ := h
        subst hqp
        have hmcf : callocMustClear st1 q = false := by
          revert hmc
          cases callocMustClear st1 q <;> simp
        have hshape := coreDispatch_success_shape st size align q (by rw [hd])
        rw [hd] at hshape
        have hfind : st1.live.find? (fun e => e.1 == q) = some (q, size) := by
          rw [hshape.1]
          simp [List.find?]
        intro i hi
        exact memAt_zero_of_mcc_false st1 q size hfind hmcf i hi

/-- Witness for `calloc_zeroizes`: the concrete calls `calloc(4, 8)` and
`allocate_zeroed(4, 8)` on a fresh state both succeed at pointer 16 and
the first byte of each reads zero. -/
theorem calloc_zeroizes_witness :
    memAt (wcalloc stExample 4 8).2.1 (16 + 0) = 0 ∧
      memAt (wallocateZeroed stExample 4 8).2 (16 + 0) = 0 :=
  ⟨((calloc_zeroizes stExample 4 8 16).1 rfl).1 0 (by omega),
    (calloc_zeroizes stExample 4 8 16).2.1 4 rfl 0 (by omega)⟩
